import Mathlib

/-!
Verification of the macOS pasteboard backend (`src/macos/src/lib.rs`) of
`window_clipboard`.

The Rust code is a thin layer over the `NSPasteboard` Objective-C API.  We
shallow-embed it as follows:

* byte payloads are `List Nat` (each entry a byte value);
* Rust `String` / `&str` values are `List Char` (Lean `Char` is a Unicode
  scalar value, exactly like Rust `char`);
* an `NSPasteboardItem` is its ordered list of (type identifier, payload)
  representations;
* the pasteboard state is the ordered list of items it currently holds;
* every operation of the Rust `Clipboard` type is a pure function of the
  pasteboard state (and of the OS responses that the OS may choose freely:
  a null return from `readObjectsForClasses:options:` and the boolean
  result of `writeObjects:`), returning its Rust-level result together with
  the trace of OS calls it issued.  The state after an operation is obtained
  by folding the trace over the state, so that "reads do not mutate" is a
  real statement about the calls issued and not an artifact of the types.

`String.from_utf8_lossy` and the UTF-8 encoding performed by `NSString` are
embedded as executable functions `utf8Encode` / `utf8DecodeLossy` below,
with `utf8DecodeLossy` following Rust's documented maximal-subpart
replacement behaviour.
-/


/-- UTF-8 encoding of one Unicode scalar value (given as a `Nat`), as
performed by Rust when a `String` is viewed as bytes (`s.as_ptr()` /
`s.as_bytes()` in `write_data`) and by `NSString.from_str` in `write`. -/
def utf8EncodeChar (n : Nat) : List Nat :=
  if n < 0x80 then [n]
  else if n < 0x800 then [0xC0 + n / 0x40, 0x80 + n % 0x40]
  else if n < 0x10000 then
    [0xE0 + n / 0x1000, 0x80 + n / 0x40 % 0x40, 0x80 + n % 0x40]
  else
    [0xF0 + n / 0x40000, 0x80 + n / 0x1000 % 0x40, 0x80 + n / 0x40 % 0x40,
      0x80 + n % 0x40]

/-- UTF-8 encoding of a text (list of Unicode scalar values). -/
def utf8Encode (s : List Char) : List Nat :=
  (s.map (fun c => utf8EncodeChar c.toNat)).flatten

/-- The replacement character U+FFFD used by lossy decoding. -/
def replChar : Char := Char.ofNat 0xFFFD

/-- Lossy UTF-8 decoding, embedding Rust's `String::from_utf8_lossy`:
well-formed sequences decode to their scalar value, every maximal subpart of
an ill-formed sequence is replaced by U+FFFD, and nothing is ever rejected.
The second-byte range checks depending on the lead byte (E0/ED and F0/F4
special cases) follow the UTF-8 well-formedness table that Rust's validator
implements. -/
def utf8DecodeLossy : List Nat → List Char
  | [] => []
  | b0 :: rest =>
    if b0 < 0x80 then Char.ofNat b0 :: utf8DecodeLossy rest
    else if b0 < 0xC2 then replChar :: utf8DecodeLossy rest
    else if b0 < 0xE0 then
      match rest with
      | [] => [replChar]
      | b1 :: rest1 =>
        if 0x80 ≤ b1 ∧ b1 < 0xC0 then
          Char.ofNat ((b0 - 0xC0) * 0x40 + (b1 - 0x80)) ::
            utf8DecodeLossy rest1
        else replChar :: utf8DecodeLossy (b1 :: rest1)
    else if b0 < 0xF0 then
      match rest with
      | [] => [replChar]
      | b1 :: rest1 =>
        if (0x80 ≤ b1 ∧ b1 < 0xC0) ∧ (b0 = 0xE0 → 0xA0 ≤ b1) ∧
            (b0 = 0xED → b1 < 0xA0) then
          match rest1 with
          | [] => [replChar]
          | b2 :: rest2 =>
            if 0x80 ≤ b2 ∧ b2 < 0xC0 then
              Char.ofNat ((b0 - 0xE0) * 0x1000 + (b1 - 0x80) * 0x40 +
                (b2 - 0x80)) :: utf8DecodeLossy rest2
            else replChar :: utf8DecodeLossy (b2 :: rest2)
        else replChar :: utf8DecodeLossy (b1 :: rest1)
    else if b0 < 0xF5 then
      match rest with
      | [] => [replChar]
      | b1 :: rest1 =>
        if (0x80 ≤ b1 ∧ b1 < 0xC0) ∧ (b0 = 0xF0 → 0x90 ≤ b1) ∧
            (b0 = 0xF4 → b1 < 0x90) then
          match rest1 with
          | [] => [replChar]
          | b2 :: rest2 =>
            if 0x80 ≤ b2 ∧ b2 < 0xC0 then
              match rest2 with
              | [] => [replChar]
              | b3 :: rest3 =>
                if 0x80 ≤ b3 ∧ b3 < 0xC0 then
                  Char.ofNat ((b0 - 0xF0) * 0x40000 + (b1 - 0x80) * 0x1000 +
                    (b2 - 0x80) * 0x40 + (b3 - 0x80)) ::
                    utf8DecodeLossy rest3
                else replChar :: utf8DecodeLossy (b3 :: rest3)
            else replChar :: utf8DecodeLossy (b2 :: rest2)
        else replChar :: utf8DecodeLossy (b1 :: rest1)
    else replChar :: utf8DecodeLossy rest

/-- The fixed type identifier of the plain text representation. -/
def textTypeId : String := "public.utf8-plain-text"

/-- The fixed type identifier of the custom binary attachment. -/
def emojiTypeId : String := "com.kakao.kakaoTalk.emoji.attachment"

/-- Error message of `Clipboard::new` when the OS returns no pasteboard. -/
def pasteboardNullMsg : String := "NSPasteboard#generalPasteboard returned null"

/-- Error message of the read operations when the filtered read is null. -/
def readNullMsg : String :=
  "pasteboard#readObjectsForClasses:options: returned null"

/-- Error message of the read operations when the filtered read is empty. -/
def readEmptyMsg : String :=
  "pasteboard#readObjectsForClasses:options: returned empty"

/-- Error message of the write operations when `writeObjects:` reports
failure. -/
def writeRejectedMsg : String := "NSPasteboard#writeObjects: returned false"

/-- The Rust panic message of `Option::unwrap` on `None`, used to mark the
abort path of `read_data`. -/
def unwrapPanicMsg : String := "called Option::unwrap() on a None value"

/-- An `NSPasteboardItem`: its ordered list of (type identifier, byte
payload) representations. -/
structure PBItem where
  reps : List (String × List Nat)
  deriving DecidableEq

/-- `NSPasteboardItem#dataForType:`: the payload stored under the exactly
matching type identifier, or none when that representation is absent (the
Objective-C call returns nil, surfaced as `Option` by the `objc2` binding
used in `read_data`). -/
def PBItem.dataForType (it : PBItem) (ty : String) : Option (List Nat) :=
  (it.reps.find? (fun p => p.1 == ty)).map (fun p => p.2)

/-- `NSPasteboardItem#types`: the type identifiers currently present on the
item, in order. -/
def PBItem.types (it : PBItem) : List String :=
  it.reps.map (fun p => p.1)

/-- `NSPasteboardItem#setData:forType:`: stores the payload under the type
identifier, replacing an existing representation of that type and otherwise
appending it. -/
def PBItem.setDataForType (it : PBItem) (d : List Nat) (ty : String) :
    PBItem :=
  if it.reps.any (fun p => p.1 == ty) then
    ⟨it.reps.map (fun p => if p.1 == ty then (ty, d) else p)⟩
  else ⟨it.reps ++ [(ty, d)]⟩

/-- An object passed to `NSPasteboard#writeObjects:`: either an `NSString`
(in `write`) or an `NSPasteboardItem` (in `write_data`). -/
inductive PBObject where
  | str : List Char → PBObject
  | item : PBItem → PBObject
  deriving DecidableEq

/-- Modelled from the spec (external interfaces): an `NSString` handed to
`writeObjects:` materializes on the pasteboard as an item whose single
representation is the UTF-8 encoded text under the plain text type
identifier; an `NSPasteboardItem` is placed as is. -/
def PBObject.toItem : PBObject → PBItem
  | .str s => ⟨[(textTypeId, utf8Encode s)]⟩
  | .item it => it

/-- The state of the system pasteboard: its current items, in order. -/
structure NSPasteboard where
  items : List PBItem
  deriving DecidableEq

/-- The content class passed to `readObjectsForClasses:options:`. -/
inductive FilterClass where
  | nsString
  | nsPasteboardItem
  deriving DecidableEq

/-- One OS pasteboard call issued by an operation.  `setDataForType`
addresses the freshly allocated local item of `write_data`, the others
address the pasteboard service. -/
inductive OSCall where
  | clearContents
  | readObjectsForClasses : FilterClass → OSCall
  | writeObjects : List PBObject → OSCall
  | dataForType : String → OSCall
  | typesEnum : OSCall
  | setDataForType : String → OSCall
  deriving DecidableEq

/-- The responses the OS chooses freely during one operation: whether the
filtered read returns null, and the boolean result of `writeObjects:`. -/
structure OSEnv where
  readNull : Bool
  writeAccept : Bool
  deriving DecidableEq

/-- The well-behaved OS: filtered reads return an array (possibly empty)
and writes are accepted. -/
def normalEnv : OSEnv := ⟨false, true⟩

/-- Whether a call can change the pasteboard contents. -/
def OSCall.mutates : OSCall → Bool
  | .clearContents => true
  | .writeObjects _ => true
  | _ => false

/-- Effect of one OS call on the pasteboard state, modelled from the spec
(external interfaces): `clearContents` empties the pasteboard,
an accepted `writeObjects:` appends the written objects as items, and every
other call leaves the contents unchanged. -/
def applyCall (env : OSEnv) (pb : NSPasteboard) : OSCall → NSPasteboard
  | .clearContents => ⟨[]⟩
  | .writeObjects objs =>
    if env.writeAccept then ⟨pb.items ++ objs.map PBObject.toItem⟩ else pb
  | _ => pb

/-- The pasteboard state after an operation issued the given call trace. -/
def stateAfter (env : OSEnv) (pb : NSPasteboard) (tr : List OSCall) :
    NSPasteboard :=
  tr.foldl (fun s c => applyCall env s c) pb

/-- Modelled from the spec (read behavior): filtering an item through the
string content class yields its plain text representation decoded as UTF-8,
and skips the item when that representation is absent or ill-formed.
Well-formedness of the bytes is expressed by the decode-encode fixed
point, which holds exactly for well-formed UTF-8. -/
def PBItem.asText (it : PBItem) : Option (List Char) :=
  match it.dataForType textTypeId with
  | none => none
  | some bs =>
    if utf8Encode (utf8DecodeLossy bs) = bs then some (utf8DecodeLossy bs)
    else none

/-- The string objects the OS derives from the pasteboard for a filtered
read with the string content class. -/
def NSPasteboard.stringItems (pb : NSPasteboard) : List (List Char) :=
  pb.items.filterMap PBItem.asText

/-- `readObjectsForClasses:options:` with the `NSString` class: null when
the OS chooses so, otherwise the item texts. -/
def NSPasteboard.readStringObjects (env : OSEnv) (pb : NSPasteboard) :
    Option (List (List Char)) :=
  if env.readNull then none else some pb.stringItems

/-- `readObjectsForClasses:options:` with the `NSPasteboardItem` class:
null when the OS chooses so, otherwise all current items. -/
def NSPasteboard.readItemObjects (env : OSEnv) (pb : NSPasteboard) :
    Option (List PBItem) :=
  if env.readNull then none else some pb.items

/-- Result of running a Rust function: a value, a returned error
(`Err` of `Result`), or a panic/abort. -/
inductive RunResult (α : Type) where
  | ok : α → RunResult α
  | err : String → RunResult α
  | panic : String → RunResult α
  deriving DecidableEq

/-- The non-null reference to the OS pasteboard object held by a
constructed handle. -/
structure NSPasteboardRef where
  addr : Nat
  deriving DecidableEq

/-- The `Clipboard` handle: its `pasteboard` field, an owned non-nullable
reference. -/
structure Clipboard where
  pasteboard : NSPasteboardRef
  deriving DecidableEq

/-- `Clipboard::new`, as a function of the (possibly null) result of the
`generalPasteboard` message. -/
def Clipboard.new (resp : Option NSPasteboardRef) : Except String Clipboard :=
  match resp with
  | none => Except.error pasteboardNullMsg
  | some r => Except.ok ⟨r⟩

/-- `Clipboard::read`: filtered read with the `NSString` class, null and
empty checked in turn, first object returned as text. -/
def Clipboard.read (env : OSEnv) (pb : NSPasteboard) :
    Except String (List Char) × List OSCall :=
  (match NSPasteboard.readStringObjects env pb with
   | none => Except.error readNullMsg
   | some arr =>
     match arr.head? with
     | none => Except.error readEmptyMsg
     | some s => Except.ok s,
   [OSCall.readObjectsForClasses FilterClass.nsString])

/-- `Clipboard::read_data`: filtered read with the `NSPasteboardItem`
class, null and empty checked in turn, then the two fixed representations
fetched from the first item with `dataForType:` and unwrapped
unconditionally (an absent representation aborts), the text half decoded
lossily. -/
def Clipboard.read_data (env : OSEnv) (pb : NSPasteboard) :
    RunResult (List Char × List Nat) × List OSCall :=
  match NSPasteboard.readItemObjects env pb with
  | none => (RunResult.err readNullMsg,
      [OSCall.readObjectsForClasses FilterClass.nsPasteboardItem])
  | some arr =>
    match arr.head? with
    | none => (RunResult.err readEmptyMsg,
        [OSCall.readObjectsForClasses FilterClass.nsPasteboardItem])
    | some it =>
      match it.dataForType textTypeId with
      | none => (RunResult.panic unwrapPanicMsg,
          [OSCall.readObjectsForClasses FilterClass.nsPasteboardItem,
            OSCall.dataForType textTypeId])
      | some d1 =>
        match it.dataForType emojiTypeId with
        | none => (RunResult.panic unwrapPanicMsg,
            [OSCall.readObjectsForClasses FilterClass.nsPasteboardItem,
              OSCall.dataForType textTypeId,
              OSCall.dataForType emojiTypeId])
        | some d2 => (RunResult.ok (utf8DecodeLossy d1, d2),
            [OSCall.readObjectsForClasses FilterClass.nsPasteboardItem,
              OSCall.dataForType textTypeId,
              OSCall.dataForType emojiTypeId])

/-- `Clipboard::read_buffer`: filtered read with the `NSPasteboardItem`
class, null and empty checked in turn, then the type identifiers of the
first item enumerated in order. -/
def Clipboard.read_buffer (env : OSEnv) (pb : NSPasteboard) :
    Except String (List String) × List OSCall :=
  match NSPasteboard.readItemObjects env pb with
  | none => (Except.error readNullMsg,
      [OSCall.readObjectsForClasses FilterClass.nsPasteboardItem])
  | some arr =>
    match arr.head? with
    | none => (Except.error readEmptyMsg,
        [OSCall.readObjectsForClasses FilterClass.nsPasteboardItem])
    | some it => (Except.ok it.types,
        [OSCall.readObjectsForClasses FilterClass.nsPasteboardItem,
          OSCall.typesEnum])

/-- `Clipboard::write`: clear, then write one `NSString`; the boolean
result of `writeObjects:` decides between unit success and
`WriteRejected`. -/
def Clipboard.write (env : OSEnv) (data : List Char) :
    Except String Unit × List OSCall :=
  let objs := [PBObject.str data]
  (if env.writeAccept then Except.ok () else Except.error writeRejectedMsg,
   [OSCall.clearContents, OSCall.writeObjects objs])

/-- `Clipboard::write_data`: build one fresh `NSPasteboardItem`, attach the
UTF-8 bytes of the text under the plain text identifier and the raw bytes
under the attachment identifier, then clear and write that single item;
the boolean result decides success exactly as in `write`. -/
def Clipboard.write_data (env : OSEnv) (s : List Char) (data : List Nat) :
    Except String Unit × List OSCall :=
  let nsData1 := utf8Encode s
  let nsData2 := data
  let item : PBItem :=
    ((⟨[]⟩ : PBItem).setDataForType nsData1 textTypeId).setDataForType
      nsData2 emojiTypeId
  (if env.writeAccept then Except.ok () else Except.error writeRejectedMsg,
   [OSCall.setDataForType textTypeId, OSCall.setDataForType emojiTypeId,
     OSCall.clearContents, OSCall.writeObjects [PBObject.item item]])

deriving instance DecidableEq for Except

/-- Encoding a text headed by a character splits as the character's bytes
followed by the rest. -/
theorem utf8Encode_cons (c : Char) (cs : List Char) :
    utf8Encode (c :: cs) = utf8EncodeChar c.toNat ++ utf8Encode cs := by
  rw [utf8Encode, utf8Encode, List.map_cons, List.flatten_cons]

/-- Unfolding lemma for `utf8DecodeLossy` on a non-empty byte list. -/
theorem utf8DecodeLossy_cons (b0 : Nat) (rest : List Nat) :
    utf8DecodeLossy (b0 :: rest) =
    (if b0 < 0x80 then Char.ofNat b0 :: utf8DecodeLossy rest
    else if b0 < 0xC2 then replChar :: utf8DecodeLossy rest
    else if b0 < 0xE0 then
      match rest with
      | [] => [replChar]
      | b1 :: rest1 =>
        if 0x80 ≤ b1 ∧ b1 < 0xC0 then
          Char.ofNat ((b0 - 0xC0) * 0x40 + (b1 - 0x80)) ::
            utf8DecodeLossy rest1
        else replChar :: utf8DecodeLossy (b1 :: rest1)
    else if b0 < 0xF0 then
      match rest with
      | [] => [replChar]
      | b1 :: rest1 =>
        if (0x80 ≤ b1 ∧ b1 < 0xC0) ∧ (b0 = 0xE0 → 0xA0 ≤ b1) ∧
            (b0 = 0xED → b1 < 0xA0) then
          match rest1 with
          | [] => [replChar]
          | b2 :: rest2 =>
            if 0x80 ≤ b2 ∧ b2 < 0xC0 then
              Char.ofNat ((b0 - 0xE0) * 0x1000 + (b1 - 0x80) * 0x40 +
                (b2 - 0x80)) :: utf8DecodeLossy rest2
            else replChar :: utf8DecodeLossy (b2 :: rest2)
        else replChar :: utf8DecodeLossy (b1 :: rest1)
    else if b0 < 0xF5 then
      match rest with
      | [] => [replChar]
      | b1 :: rest1 =>
        if (0x80 ≤ b1 ∧ b1 < 0xC0) ∧ (b0 = 0xF0 → 0x90 ≤ b1) ∧
            (b0 = 0xF4 → b1 < 0x90) then
          match rest1 with
          | [] => [replChar]
          | b2 :: rest2 =>
            if 0x80 ≤ b2 ∧ b2 < 0xC0 then
              match rest2 with
              | [] => [replChar]
              | b3 :: rest3 =>
                if 0x80 ≤ b3 ∧ b3 < 0xC0 then
                  Char.ofNat ((b0 - 0xF0) * 0x40000 + (b1 - 0x80) * 0x1000 +
                    (b2 - 0x80) * 0x40 + (b3 - 0x80)) ::
                    utf8DecodeLossy rest3
                else replChar :: utf8DecodeLossy (b3 :: rest3)
            else replChar :: utf8DecodeLossy (b2 :: rest2)
        else replChar :: utf8DecodeLossy (b1 :: rest1)
    else replChar :: utf8DecodeLossy rest) := by
  rw [utf8DecodeLossy.eq_def]

/-- Decoding a well-formed encoded scalar consumes exactly its bytes and
returns the scalar. -/
theorem utf8DecodeLossy_encodeChar (c : Char) (rest : List Nat) :
    utf8DecodeLossy (utf8EncodeChar c.toNat ++ rest) =
      c :: utf8DecodeLossy rest := by
  have hv : c.toNat < 0xD800 ∨ (0xDFFF < c.toNat ∧ c.toNat < 0x110000) :=
    c.valid
  have hlt : c.toNat < 0x110000 := by omega
  set n := c.toNat with hn
  have hofn : Char.ofNat n = c := hn ▸ Char.ofNat_toNat c
  by_cases h1 : n < 0x80
  · rw [utf8EncodeChar, if_pos h1]
    rw [List.cons_append, List.nil_append, utf8DecodeLossy_cons, if_pos h1,
      hofn]
  · by_cases h2 : n < 0x800
    · rw [utf8EncodeChar, if_neg h1, if_pos h2]
      rw [List.cons_append, List.cons_append, List.nil_append,
        utf8DecodeLossy_cons]
      dsimp only
      rw [if_neg (by omega), if_neg (by omega), if_pos (by omega),
        if_pos (by omega)]
      rw [show (0xC0 + n / 0x40 - 0xC0) * 0x40 + (0x80 + n % 0x40 - 0x80)
          = n by omega, hofn]
    · by_cases h3 : n < 0x10000
      · rw [utf8EncodeChar, if_neg h1, if_neg h2, if_pos h3]
        rw [List.cons_append, List.cons_append, List.cons_append,
          List.nil_append, utf8DecodeLossy_cons]
        dsimp only
        rw [if_neg (by omega), if_neg (by omega), if_neg (by omega),
          if_pos (by omega)]
        rw [if_pos (by omega), if_pos (by omega)]
        rw [show (0xE0 + n / 0x1000 - 0xE0) * 0x1000 +
            (0x80 + n / 0x40 % 0x40 - 0x80) * 0x40 + (0x80 + n % 0x40 - 0x80)
            = n by omega, hofn]
      · rw [utf8EncodeChar, if_neg h1, if_neg h2, if_neg h3]
        rw [List.cons_append, List.cons_append, List.cons_append,
          List.cons_append, List.nil_append, utf8DecodeLossy_cons]
        dsimp only
        rw [if_neg (by omega), if_neg (by omega), if_neg (by omega),
          if_neg (by omega), if_pos (by omega)]
        rw [if_pos (by omega), if_pos (by omega), if_pos (by omega)]
        rw [show (0xF0 + n / 0x40000 - 0xF0) * 0x40000 +
            (0x80 + n / 0x1000 % 0x40 - 0x80) * 0x1000 +
            (0x80 + n / 0x40 % 0x40 - 0x80) * 0x40 + (0x80 + n % 0x40 - 0x80)
            = n by omega, hofn]

/-- Lossy decoding inverts encoding on every text, with any trailing bytes
decoded independently. -/
theorem utf8DecodeLossy_encode_append (s : List Char) (rest : List Nat) :
    utf8DecodeLossy (utf8Encode s ++ rest) = s ++ utf8DecodeLossy rest := by
  induction s with
  | nil => rw [utf8Encode]; simp
  | cons c cs ih =>
    rw [utf8Encode_cons, List.append_assoc, utf8DecodeLossy_encodeChar c, ih,
      List.cons_append]

/-- Round trip of the UTF-8 codec on valid text. -/
theorem utf8DecodeLossy_encode (s : List Char) :
    utf8DecodeLossy (utf8Encode s) = s := by
  have := utf8DecodeLossy_encode_append s []
  simpa [utf8DecodeLossy] using this

/-- The pasteboard after a `write` accepted by the OS holds exactly one
item: the text under the plain text identifier. -/
theorem stateAfter_write_normal (pb : NSPasteboard) (s : List Char) :
    stateAfter normalEnv pb (Clipboard.write normalEnv s).2 =
      ⟨[⟨[(textTypeId, utf8Encode s)]⟩]⟩ := rfl

/-- `read` after an accepted `write` recovers the written text. -/
theorem read_after_write (pb : NSPasteboard) (s : List Char) :
    (Clipboard.read normalEnv
        (stateAfter normalEnv pb (Clipboard.write normalEnv s).2)).1 =
      Except.ok s := by
  rw [stateAfter_write_normal]
  have hdec : utf8DecodeLossy (utf8Encode s) = s := utf8DecodeLossy_encode s
  simp [Clipboard.read, NSPasteboard.readStringObjects, normalEnv,
    NSPasteboard.stringItems, PBItem.asText, PBItem.dataForType, hdec]

/-- The pasteboard after an accepted `write_data` holds exactly one item:
the UTF-8 text bytes under the plain text identifier followed by the raw
bytes under the attachment identifier. -/
theorem stateAfter_write_data_normal (pb : NSPasteboard) (s : List Char)
    (b : List Nat) :
    stateAfter normalEnv pb (Clipboard.write_data normalEnv s b).2 =
      ⟨[⟨[(textTypeId, utf8Encode s), (emojiTypeId, b)]⟩]⟩ := by
  have hne : (textTypeId == emojiTypeId) = false := by decide
  simp [Clipboard.write_data, stateAfter, applyCall, normalEnv,
    PBItem.setDataForType, PBObject.toItem, List.any_cons, hne]

/-- `read_data` after an accepted `write_data` recovers the text and the
attachment bytes. -/
theorem read_data_after_write_data (pb : NSPasteboard) (s : List Char)
    (b : List Nat) :
    (Clipboard.read_data normalEnv
        (stateAfter normalEnv pb (Clipboard.write_data normalEnv s b).2)).1 =
      RunResult.ok (s, b) := by
  rw [stateAfter_write_data_normal]
  have hne : (emojiTypeId == textTypeId) = false := by decide
  have hne2 : (textTypeId == emojiTypeId) = false := by decide
  have hdec : utf8DecodeLossy (utf8Encode s) = s := utf8DecodeLossy_encode s
  simp [Clipboard.read_data, NSPasteboard.readItemObjects, normalEnv,
    PBItem.dataForType, List.find?_cons, hne, hne2, hdec]

/-- `read_buffer` after an accepted `write_data` lists exactly the two
fixed type identifiers, plain text first. -/
theorem read_buffer_after_write_data (pb : NSPasteboard) (s : List Char)
    (b : List Nat) :
    (Clipboard.read_buffer normalEnv
        (stateAfter normalEnv pb (Clipboard.write_data normalEnv s b).2)).1 =
      Except.ok [textTypeId, emojiTypeId] := by
  rw [stateAfter_write_data_normal]
  simp [Clipboard.read_buffer, NSPasteboard.readItemObjects, normalEnv,
    PBItem.types]

/-- Claim C1: for every prior pasteboard state and every text (including
the empty text and multi-byte content), `write(s)` followed by `read()` on
the well-behaved OS returns exactly `s`. -/
theorem claim1_write_read_roundtrip (pb : NSPasteboard) (s : List Char) :
    (Clipboard.read normalEnv
        (stateAfter normalEnv pb (Clipboard.write normalEnv s).2)).1 =
      Except.ok s :=
  read_after_write pb s

/-- Claim C2: for every text `s` and byte sequence `b` (including empty
`b`), `write_data(s, b)` followed by `read_data()` returns the pair
`(s, b)`; and the text half goes through lossy decoding, so an item whose
text representation holds invalid UTF-8 yields replacement characters
rather than a failure. -/
theorem claim2_write_data_read_data_roundtrip :
    (∀ (pb : NSPasteboard) (s : List Char) (b : List Nat),
      (∀ x ∈ b, x < 256) →
      (Clipboard.read_data normalEnv
          (stateAfter normalEnv pb
            (Clipboard.write_data normalEnv s b).2)).1 =
        RunResult.ok (s, b)) ∧
    (Clipboard.read_data normalEnv
        ⟨[⟨[(textTypeId, [0xFF]), (emojiTypeId, [])]⟩]⟩).1 =
      RunResult.ok ([replChar], []) := by
  constructor
  · intro pb s b _
    exact read_data_after_write_data pb s b
  · decide

/-- Witness for claim C2 at a concrete text and byte sequence. -/
theorem claim2_witness :
    (∀ x ∈ [1, 2], x < 256) ∧
    (Clipboard.read_data normalEnv
        (stateAfter normalEnv ⟨[]⟩
          (Clipboard.write_data normalEnv ("a".toList) [1, 2]).2)).1 =
      RunResult.ok ("a".toList, [1, 2]) :=
  ⟨by decide,
    claim2_write_data_read_data_roundtrip.1 ⟨[]⟩ ("a".toList) [1, 2]
      (by decide)⟩

/-- Claim C3 (code bug evaluation): after a plain `write("hello")` the
single pasteboard item has no attachment representation, and `read_data`
aborts with the `Option::unwrap` panic instead of returning an empty
payload. -/
theorem claim3_read_data_absent_rep_panics :
    (Clipboard.read_data normalEnv
        (stateAfter normalEnv ⟨[]⟩
          (Clipboard.write normalEnv ("hello".toList)).2)).1 =
      RunResult.panic unwrapPanicMsg := by
  decide

/-- Claim C6: `write` is destructive and last-write-wins: after two
consecutive accepted writes only the second item exists on the pasteboard
(so the first item's representations are unrecoverable), and `read`
returns the second text. -/
theorem claim6_write_last_write_wins (pb : NSPasteboard)
    (s1 s2 : List Char) :
    stateAfter normalEnv
        (stateAfter normalEnv pb (Clipboard.write normalEnv s1).2)
        (Clipboard.write normalEnv s2).2 =
      ⟨[⟨[(textTypeId, utf8Encode s2)]⟩]⟩ ∧
    (Clipboard.read normalEnv
        (stateAfter normalEnv
          (stateAfter normalEnv pb (Clipboard.write normalEnv s1).2)
          (Clipboard.write normalEnv s2).2)).1 = Except.ok s2 :=
  ⟨stateAfter_write_normal _ s2, read_after_write _ s2⟩

/-- Claim C7: `read_buffer` enumerates, in OS order, every type identifier
of the first item of the raw filtered read; after `write_data` it lists
exactly the plain text identifier and the attachment identifier. -/
theorem claim7_read_buffer_enumerates :
    (∀ (env : OSEnv) (pb : NSPasteboard) (it : PBItem)
      (rest : List PBItem), env.readNull = false → pb.items = it :: rest →
      (Clipboard.read_buffer env pb).1 = Except.ok it.types) ∧
    (∀ (pb : NSPasteboard) (s : List Char) (b : List Nat),
      (Clipboard.read_buffer normalEnv
          (stateAfter normalEnv pb
            (Clipboard.write_data normalEnv s b).2)).1 =
        Except.ok [textTypeId, emojiTypeId]) := by
  constructor
  · intro env pb it rest hnull hitems
    simp [Clipboard.read_buffer, NSPasteboard.readItemObjects, hnull,
      hitems]
  · intro pb s b
    exact read_buffer_after_write_data pb s b

/-- Witness for claim C7 at a concrete pasteboard state. -/
theorem claim7_witness :
    (normalEnv.readNull = false) ∧
    (NSPasteboard.mk [PBItem.mk [("a", [1])]]).items =
      PBItem.mk [("a", [1])] :: [] ∧
    (Clipboard.read_buffer normalEnv
        ⟨[⟨[("a", [1])]⟩]⟩).1 = Except.ok (PBItem.mk [("a", [1])]).types :=
  ⟨rfl, rfl,
    claim7_read_buffer_enumerates.1 normalEnv ⟨[⟨[("a", [1])]⟩]⟩
      ⟨[("a", [1])]⟩ [] rfl rfl⟩

/-- Claim C4: `read` fails exactly when the filtered read returns null
(with the null message) or an empty list (with the empty message), those
are its only errors, and on a freshly cleared pasteboard it fails with the
empty-result error. -/
theorem claim4_read_error_characterization :
    (∀ (env : OSEnv) (pb : NSPasteboard),
      ((Clipboard.read env pb).1 = Except.error readNullMsg ↔
        NSPasteboard.readStringObjects env pb = none)) ∧
    (∀ (env : OSEnv) (pb : NSPasteboard),
      ((Clipboard.read env pb).1 = Except.error readEmptyMsg ↔
        NSPasteboard.readStringObjects env pb = some [])) ∧
    (∀ (env : OSEnv) (pb : NSPasteboard) (e : String),
      (Clipboard.read env pb).1 = Except.error e →
      e = readNullMsg ∨ e = readEmptyMsg) ∧
    (∀ pb : NSPasteboard,
      (Clipboard.read normalEnv
          (applyCall normalEnv pb OSCall.clearContents)).1 =
        Except.error readEmptyMsg) := by
  have hmsg : readNullMsg ≠ readEmptyMsg := by decide
  refine ⟨?_, ?_, ?_, ?_⟩
  · intro env pb
    rcases henv : env.readNull with _ | _
    · simp only [Clipboard.read, NSPasteboard.readStringObjects, henv,
        Bool.false_eq_true, if_false]
      cases hs : pb.stringItems with
      | nil => simpa using fun h => absurd h.symm hmsg
      | cons a l => simp
    · simp [Clipboard.read, NSPasteboard.readStringObjects, henv]
  · intro env pb
    rcases henv : env.readNull with _ | _
    · simp only [Clipboard.read, NSPasteboard.readStringObjects, henv,
        Bool.false_eq_true, if_false]
      cases hs : pb.stringItems with
      | nil => simp
      | cons a l => simp
    · simpa [Clipboard.read, NSPasteboard.readStringObjects, henv]
        using fun h => absurd h hmsg
  · intro env pb e h
    rcases henv : env.readNull with _ | _
    · simp only [Clipboard.read, NSPasteboard.readStringObjects, henv,
        Bool.false_eq_true, if_false] at h
      cases hs : pb.stringItems with
      | nil => rw [hs] at h; right; simpa using h.symm
      | cons a l => rw [hs] at h; simp at h
    · simp only [Clipboard.read, NSPasteboard.readStringObjects, henv,
        if_true] at h
      left; simpa using h.symm
  · intro pb
    simp [Clipboard.read, NSPasteboard.readStringObjects, applyCall,
      normalEnv, NSPasteboard.stringItems]

/-- Witness for claim C4: the only-errors clause at the null response. -/
theorem claim4_witness :
    (Clipboard.read ⟨true, true⟩ ⟨[]⟩).1 = Except.error readNullMsg ∧
    (readNullMsg = readNullMsg ∨ readNullMsg = readEmptyMsg) :=
  ⟨by decide,
    claim4_read_error_characterization.2.2.1 ⟨true, true⟩ ⟨[]⟩ readNullMsg
      (by decide)⟩

/-- Claim C5: `write` and `write_data` succeed with unit exactly when the
OS accepts the write, fail with the rejection error exactly when the OS
reports false, and have no other error. -/
theorem claim5_write_rejected_characterization :
    (∀ (env : OSEnv) (s : List Char),
      ((Clipboard.write env s).1 = Except.ok () ↔
        env.writeAccept = true) ∧
      ((Clipboard.write env s).1 = Except.error writeRejectedMsg ↔
        env.writeAccept = false) ∧
      (∀ e, (Clipboard.write env s).1 = Except.error e →
        e = writeRejectedMsg)) ∧
    (∀ (env : OSEnv) (s : List Char) (b : List Nat),
      ((Clipboard.write_data env s b).1 = Except.ok () ↔
        env.writeAccept = true) ∧
      ((Clipboard.write_data env s b).1 = Except.error writeRejectedMsg ↔
        env.writeAccept = false) ∧
      (∀ e, (Clipboard.write_data env s b).1 = Except.error e →
        e = writeRejectedMsg)) := by
  constructor
  · intro env s
    rcases henv : env.writeAccept with _ | _ <;>
      simp [Clipboard.write, henv]
  · intro env s b
    rcases henv : env.writeAccept with _ | _ <;>
      simp [Clipboard.write_data, henv]

/-- Witness for claim C5 at a rejecting OS. -/
theorem claim5_witness :
    (Clipboard.write ⟨false, false⟩ []).1 =
        Except.error writeRejectedMsg ∧
    (Clipboard.write_data ⟨false, false⟩ [] []).1 =
        Except.error writeRejectedMsg :=
  ⟨((claim5_write_rejected_characterization.1 ⟨false, false⟩ []).2.1).mpr
      rfl,
    ((claim5_write_rejected_characterization.2 ⟨false, false⟩ []
      []).2.1).mpr rfl⟩

/-- Claim C8: `read_data` fetches representations only under the two fixed
type identifiers, `write_data` attaches representations only under them,
`write_data` always attaches both, and a successful `read_data` has
fetched both. -/
theorem claim8_fixed_type_identifiers :
    (∀ (env : OSEnv) (pb : NSPasteboard) (ty : String),
      OSCall.dataForType ty ∈ (Clipboard.read_data env pb).2 →
      ty = textTypeId ∨ ty = emojiTypeId) ∧
    (∀ (env : OSEnv) (s : List Char) (b : List Nat) (ty : String),
      OSCall.setDataForType ty ∈ (Clipboard.write_data env s b).2 →
      ty = textTypeId ∨ ty = emojiTypeId) ∧
    (∀ (env : OSEnv) (s : List Char) (b : List Nat),
      OSCall.setDataForType textTypeId ∈
        (Clipboard.write_data env s b).2 ∧
      OSCall.setDataForType emojiTypeId ∈
        (Clipboard.write_data env s b).2) ∧
    (∀ (env : OSEnv) (pb : NSPasteboard) (r : List Char × List Nat),
      (Clipboard.read_data env pb).1 = RunResult.ok r →
      OSCall.dataForType textTypeId ∈ (Clipboard.read_data env pb).2 ∧
      OSCall.dataForType emojiTypeId ∈ (Clipboard.read_data env pb).2) := by
  refine ⟨?_, ?_, ?_, ?_⟩
  · intro env pb ty h
    rcases hro : NSPasteboard.readItemObjects env pb with _ | arr
    · simp [Clipboard.read_data, hro] at h
    · rcases hh : arr.head? with _ | it
      · simp [Clipboard.read_data, hro, hh] at h
      · rcases h1 : it.dataForType textTypeId with _ | d1
        · simp [Clipboard.read_data, hro, hh, h1] at h
          exact Or.inl h
        · rcases h2 : it.dataForType emojiTypeId with _ | d2 <;>
            simp [Clipboard.read_data, hro, hh, h1, h2] at h <;>
            tauto
  · intro env s b ty h
    simp [Clipboard.write_data] at h
    tauto
  · intro env s b
    simp [Clipboard.write_data]
  · intro env pb r h
    rcases hro : NSPasteboard.readItemObjects env pb with _ | arr
    · simp [Clipboard.read_data, hro] at h
    · rcases hh : arr.head? with _ | it
      · simp [Clipboard.read_data, hro, hh] at h
      · rcases h1 : it.dataForType textTypeId with _ | d1
        · simp [Clipboard.read_data, hro, hh, h1] at h
        · rcases h2 : it.dataForType emojiTypeId with _ | d2
          · simp [Clipboard.read_data, hro, hh, h1, h2] at h
          · simp [Clipboard.read_data, hro, hh, h1, h2]

/-- Witness for claim C8: a fetched identifier at a concrete state is one
of the two fixed ones. -/
theorem claim8_witness :
    OSCall.dataForType textTypeId ∈
      (Clipboard.read_data normalEnv
        ⟨[⟨[(textTypeId, []), (emojiTypeId, [])]⟩]⟩).2 ∧
    (textTypeId = textTypeId ∨ textTypeId = emojiTypeId) :=
  ⟨by decide,
    claim8_fixed_type_identifiers.1 normalEnv
      ⟨[⟨[(textTypeId, []), (emojiTypeId, [])]⟩]⟩ textTypeId (by decide)⟩

/-- Claim C9: `new` fails with the resource error exactly on a null
`generalPasteboard` response and produces no handle then; on a non-null
response it succeeds, and the handle stores exactly the non-null reference
the OS returned. -/
theorem claim9_new_characterization :
    (Clipboard.new none = Except.error pasteboardNullMsg) ∧
    (∀ r : NSPasteboardRef, Clipboard.new (some r) = Except.ok ⟨r⟩) ∧
    (∀ (resp : Option NSPasteboardRef) (c : Clipboard),
      Clipboard.new resp = Except.ok c → resp = some c.pasteboard) := by
  refine ⟨rfl, fun r => rfl, ?_⟩
  intro resp c h
  cases resp with
  | none => simp [Clipboard.new] at h
  | some r => simp [Clipboard.new] at h; rw [← h]

/-- Witness for claim C9 at a concrete reference. -/
theorem claim9_witness :
    Clipboard.new (some ⟨7⟩) = Except.ok ⟨⟨7⟩⟩ ∧
    some (NSPasteboardRef.mk 7) =
      some (Clipboard.mk ⟨7⟩).pasteboard :=
  ⟨rfl, claim9_new_characterization.2.2 (some ⟨7⟩) ⟨⟨7⟩⟩ rfl⟩

/-- Claim C10: the three read operations issue no clearing or writing OS
call, whatever the pasteboard state and the OS responses, so the
pasteboard state after their call trace is unchanged. -/
theorem claim10_reads_do_not_mutate (env : OSEnv) (pb : NSPasteboard) :
    ((Clipboard.read env pb).2.all (fun c => !c.mutates) = true ∧
      stateAfter env pb (Clipboard.read env pb).2 = pb) ∧
    ((Clipboard.read_data env pb).2.all (fun c => !c.mutates) = true ∧
      stateAfter env pb (Clipboard.read_data env pb).2 = pb) ∧
    ((Clipboard.read_buffer env pb).2.all (fun c => !c.mutates) = true ∧
      stateAfter env pb (Clipboard.read_buffer env pb).2 = pb) := by
  refine ⟨⟨rfl, rfl⟩, ⟨?_, ?_⟩, ?_⟩
  · rcases hro : NSPasteboard.readItemObjects env pb with _ | arr
    · simp [Clipboard.read_data, hro, OSCall.mutates]
    · rcases hh : arr.head? with _ | it
      · simp [Clipboard.read_data, hro, hh, OSCall.mutates]
      · rcases h1 : it.dataForType textTypeId with _ | d1
        · simp [Clipboard.read_data, hro, hh, h1, OSCall.mutates]
        · rcases h2 : it.dataForType emojiTypeId with _ | d2 <;>
            simp [Clipboard.read_data, hro, hh, h1, h2, OSCall.mutates]
  · rcases hro : NSPasteboard.readItemObjects env pb with _ | arr
    · simp [Clipboard.read_data, hro, stateAfter, applyCall]
    · rcases hh : arr.head? with _ | it
      · simp [Clipboard.read_data, hro, hh, stateAfter, applyCall]
      · rcases h1 : it.dataForType textTypeId with _ | d1
        · simp [Clipboard.read_data, hro, hh, h1, stateAfter, applyCall]
        · rcases h2 : it.dataForType emojiTypeId with _ | d2 <;>
            simp [Clipboard.read_data, hro, hh, h1, h2, stateAfter,
              applyCall]
  · rcases hro : NSPasteboard.readItemObjects env pb with _ | arr
    · constructor <;>
        simp [Clipboard.read_buffer, hro, OSCall.mutates, stateAfter,
          applyCall]
    · rcases hh : arr.head? with _ | it <;>
        constructor <;>
        simp [Clipboard.read_buffer, hro, hh, OSCall.mutates, stateAfter,
          applyCall]
